import Mathlib

/-!
Verification of the trivia-music batch pipeline (`main.py`) against its
specification.  The Python source is shallowly embedded: pure helpers become
Lean functions, the worker's `run` loop becomes a recursive function over the
job list with the external world (elapsed clock, download outcomes,
cancellation flag reads) passed in as explicit parameters, and emitted Qt
signals become an explicit event list.
-/

namespace TriviaMusic

/-! ## Decimal rendering of naturals

`natToDec` models Python's `str(n)` / `f"{n:d}"` for a natural number: the
usual base-10 numeral.  It is written with explicit fuel (structural on the
first argument) so that concrete values reduce by `decide`/`rfl`. -/

/-- Big-endian decimal digit characters of `n`, empty for `n = 0`;
`fuel ≥ n` suffices since `n / 10 < n` for `n > 0`. -/
def decDigitsAux : Nat → Nat → List Char
  | 0, _ => []
  | fuel + 1, n =>
    if n = 0 then []
    else decDigitsAux fuel (n / 10) ++ [Nat.digitChar (n % 10)]

/-- Decimal representation of a natural number (Python `str(n)`). -/
def natToDec (n : Nat) : String :=
  if n = 0 then "0" else String.mk (decDigitsAux n n)

/-- Numeric value of a list of decimal digit characters (most significant
first); left inverse of `decDigitsAux`. -/
def valDigits (l : List Char) : Nat :=
  l.foldl (fun a c => a * 10 + (c.toNat - 48)) 0

/-- Python `f"{n:02d}"`: decimal, left-padded with `'0'` to width 2. -/
def pad2 (n : Nat) : String :=
  if n < 10 then "0" ++ natToDec n else natToDec n

/-! ## TimestampParser (`parse_timestamp`, main.py lines 47-78) -/

/-- Python `str.strip()` on a character list: drop leading and trailing
whitespace. -/
def stripChars (l : List Char) : List Char :=
  ((l.dropWhile Char.isWhitespace).reverse.dropWhile Char.isWhitespace).reverse

/-- Python `str.strip()`. -/
def pyStrip (s : String) : String :=
  String.mk (stripChars s.data)

/-- Python `str.split(sep)` for a one-character separator: always returns at
least one (possibly empty) field. -/
def splitOnChar (sep : Char) : List Char → List (List Char)
  | [] => [[]]
  | c :: rest =>
    let r := splitOnChar sep rest
    if c = sep then [] :: r
    else
      match r with
      | h :: t => (c :: h) :: t
      | [] => [[c]]

/-- Python `str.split(sep)` lifted to strings. -/
def pySplit (s : String) (sep : Char) : List String :=
  (splitOnChar sep s.data).map String.mk

/-- Value of a non-empty all-digit character list, `none` otherwise. -/
def digitsToNat (l : List Char) : Option Nat :=
  if !l.isEmpty && l.all Char.isDigit then some (valDigits l) else none

/-- Model of CPython `int(s)` on ASCII input: strip surrounding whitespace,
allow one optional leading sign, then decimal digits.  (The underscore
digit-separator extension of CPython is not modelled; no call site uses it.) -/
def pyInt (s : String) : Option Int :=
  match stripChars s.data with
  | '+' :: rest => (digitsToNat rest).map Int.ofNat
  | '-' :: rest => (digitsToNat rest).map (fun n => -(n : Int))
  | l => (digitsToNat l).map Int.ofNat

/-- `parse_timestamp` (main.py 47-78): empty string is rejected up front
(`if not timestamp_str`), then the stripped text is split on `':'` into
2 (mm:ss) or 3 (hh:mm:ss) integer fields; any other part count falls through
to the bare `int()` attempt, which fails because the text still contains
`':'`.  A colon-free string is parsed as bare seconds. -/
def parse_timestamp (s : String) : Option Int :=
  if s = "" then none
  else
    let t := pyStrip s
    if t.data.contains ':' then
      match pySplit t ':' with
      | [m, sec] =>
        match pyInt m, pyInt sec with
        | some mi, some si => some (mi * 60 + si)
        | _, _ => none
      | [h, m, sec] =>
        match pyInt h, pyInt m, pyInt sec with
        | some hi, some mi, some si => some (hi * 3600 + mi * 60 + si)
        | _, _, _ => none
      | _ => pyInt t
    else
      pyInt t

/-- A string is "int-like" when Python `int()` accepts it. -/
def intlike (s : String) : Bool :=
  (pyInt s).isSome

/-- The shapes the spec says `parse` accepts: a bare integer, `mm:ss`, or
`hh:mm:ss` (each field int-like). -/
def timestampShape (s : String) : Bool :=
  let t := pyStrip s
  intlike t ||
    (match pySplit t ':' with
     | [a, b] => intlike a && intlike b
     | [a, b, c] => intlike a && intlike b && intlike c
     | _ => false)

/-- C7: `parse_timestamp` maps "83" to 83, "1:23" to 83, "1:02:03" to 3723,
and every string it accepts is (after stripping) a bare integer, an `mm:ss`
pair, or an `hh:mm:ss` triple of int-like fields; anything else — such as
"abc" — is rejected with `none`. -/
theorem c7_parse_timestamp_shapes :
    parse_timestamp "83" = some 83 ∧
    parse_timestamp "1:23" = some 83 ∧
    parse_timestamp "1:02:03" = some 3723 ∧
    parse_timestamp "abc" = none ∧
    ∀ (s : String) (n : Int), parse_timestamp s = some n → timestampShape s = true := by
  refine ⟨by decide, by decide, by decide, by decide, ?_⟩
  intro s n h
  by_cases h0 : s = ""
  · subst h0; simp [parse_timestamp] at h
  · simp only [parse_timestamp, if_neg h0] at h
    simp only [timestampShape]
    by_cases hc : (pyStrip s).data.contains ':'
    · simp only [if_pos hc] at h
      rcases hsplit : pySplit (pyStrip s) ':' with _ | ⟨a, _ | ⟨b, _ | ⟨c, rest⟩⟩⟩ <;>
        simp only [hsplit] at h ⊢
      · simp [intlike, h]
      · simp [intlike, h]
      · rcases hA : pyInt a with _ | va <;> rcases hB : pyInt b with _ | vb <;>
          simp [hA, hB] at h <;> simp [intlike, hA, hB]
      · rcases rest with _ | ⟨d, rest⟩
        · rcases hA : pyInt a with _ | va <;> rcases hB : pyInt b with _ | vb <;>
            rcases hC : pyInt c with _ | vc <;> simp [hA, hB, hC] at h <;>
            simp [intlike, hA, hB, hC]
        · simp only at h
          simp [intlike, h]
    · simp only [if_neg hc] at h
      simp [intlike, h]

/-- C7 witness: the universal clause applied at the concrete input "83". -/
theorem c7_parse_timestamp_shapes_witness : timestampShape "83" = true :=
  c7_parse_timestamp_shapes.2.2.2.2 "83" 83 (by decide)

/-! ## Packager (`create_output_file`, main.py lines 391-453) -/

/-- Title sanitization (main.py 417-419 / 444-446):
`"".join(c for c in title if c.isalnum() or c in (' ', '-', '_')).rstrip()`
then `.replace(' ', '_')[:40]`.  After the filter the only whitespace left is
`' '`, so `rstrip` drops trailing spaces.  `Char.isAlphanum` models the ASCII
fragment of Python's `str.isalnum`. -/
def sanitizeTitle (t : String) : String :=
  let kept := t.data.filter fun c => c.isAlphanum || c == ' ' || c == '-' || c == '_'
  let stripped := (kept.reverse.dropWhile (· == ' ')).reverse
  String.mk ((stripped.map fun c => if c == ' ' then '_' else c).take 40)

/-- One processed clip as accumulated by the worker loop
(`{'file': ..., 'title': ..., 'index': i}`). -/
structure PFile where
  file : String
  title : String
  index : Nat
deriving DecidableEq

/-- Archive entry name (main.py 447): `f"{index+1:02d}-{clean_title}.mp3"`. -/
def arcname (f : PFile) : String :=
  pad2 (f.index + 1) ++ "-" ++ sanitizeTitle f.title ++ ".mp3"

/-- The deliverable written to the destination directory: a single bare file,
or one zip archive with its entry names in insertion order. -/
inductive OutputResult where
  | single (path : String)
  | zip (path : String) (entries : List String)
deriving DecidableEq

/-- Path carried by the `finished` signal. -/
def OutputResult.path : OutputResult → String
  | .single p => p
  | .zip p _ => p

/-- `create_output_file` (main.py 391-453): exactly one processed file is
copied bare under `<sanitized title>.mp3`; otherwise a single zip named
`music_rounds_<timestamp>.zip` is written, entries named by `arcname` in list
order.  `outdir` is the resolved output directory and `now` the
`%Y%m%d_%H%M%S` timestamp string. -/
def create_output_file (outdir now : String) (fs : List PFile) : OutputResult :=
  match fs with
  | [f] => .single (outdir ++ "/" ++ sanitizeTitle f.title ++ ".mp3")
  | _ => .zip (outdir ++ "/music_rounds_" ++ now ++ ".zip") (fs.map arcname)

/-! ### Decimal-rendering inverse lemmas (for entry-name injectivity) -/

lemma valDigits_append_singleton (l : List Char) (c : Char) :
    valDigits (l ++ [c]) = valDigits l * 10 + (c.toNat - 48) := by
  simp [valDigits, List.foldl_append]

lemma digitChar_val {d : Nat} (hd : d < 10) : (Nat.digitChar d).toNat - 48 = d := by
  interval_cases d <;> decide

lemma valDigits_decDigitsAux : ∀ (fuel n : Nat), n ≤ fuel →
    valDigits (decDigitsAux fuel n) = n := by
  intro fuel
  induction fuel with
  | zero =>
    intro n hn
    interval_cases n
    decide
  | succ fuel ih =>
    intro n hn
    by_cases h0 : n = 0
    · subst h0; simp [decDigitsAux, valDigits]
    · have hdiv : n / 10 ≤ fuel := by omega
      have hmod : n % 10 < 10 := Nat.mod_lt _ (by omega)
      simp only [decDigitsAux, if_neg h0, valDigits_append_singleton,
        ih (n / 10) hdiv, digitChar_val hmod]
      omega

lemma valDigits_natToDec (n : Nat) : valDigits (natToDec n).data = n := by
  by_cases h0 : n = 0
  · subst h0; decide
  · rw [natToDec, if_neg h0]
    exact valDigits_decDigitsAux n n le_rfl

lemma valDigits_pad2 (n : Nat) : valDigits (pad2 n).data = n := by
  rw [pad2]
  by_cases h : n < 10
  · rw [if_pos h]
    have : ("0" ++ natToDec n).data = '0' :: (natToDec n).data := rfl
    rw [this]
    have : valDigits ('0' :: (natToDec n).data) = valDigits (natToDec n).data := by
      simp [valDigits]
    rw [this, valDigits_natToDec]
  · rw [if_neg h, valDigits_natToDec]

lemma pad2_injective : Function.Injective pad2 := by
  intro a b hab
  have := congrArg (fun s => valDigits s.data) hab
  simpa [valDigits_pad2] using this

/-- C9: sanitization keeps only alphanumerics, hyphen and underscore (spaces
having been converted to underscores), truncates to 40 characters, and two
processed files with the same title but distinct `index` values always get
distinct archive entry names. -/
theorem c9_sanitization_collision_tolerant :
    (∀ t : String, (sanitizeTitle t).length ≤ 40 ∧
      ∀ c ∈ (sanitizeTitle t).data, c.isAlphanum = true ∨ c = '-' ∨ c = '_') ∧
    ∀ f g : PFile, f.title = g.title → f.index ≠ g.index → arcname f ≠ arcname g := by
  constructor
  · intro t
    constructor
    · show ((_ : List Char).take 40).length ≤ 40
      rw [List.length_take]
      omega
    · intro c hc
      have hc' := List.mem_of_mem_take hc
      rw [List.mem_map] at hc'
      obtain ⟨a, ha, hac⟩ := hc'
      have hmem : a ∈ (t.data.filter fun c =>
          c.isAlphanum || c == ' ' || c == '-' || c == '_') := by
        have := (List.dropWhile_sublist (l :=
          (t.data.filter fun c =>
            c.isAlphanum || c == ' ' || c == '-' || c == '_').reverse)
          (· == ' ')).subset
        have ha' := List.mem_reverse.mp ha
        exact List.mem_reverse.mp (this ha')
      have hpred := List.of_mem_filter hmem
      by_cases hsp : a = ' '
      · subst hsp
        simp at hac
        subst hac
        right; right; rfl
      · have : (a == ' ') = false := by simp [hsp]
        rw [this] at hac
        simp at hac
        subst hac
        simp [hsp] at hpred
        tauto
  · intro f g htitle hidx heq
    apply hidx
    have hdata := congrArg String.data heq
    simp only [arcname, htitle, String.data_append, List.append_assoc] at hdata
    have hpad := List.append_cancel_right hdata
    have := congrArg valDigits hpad
    rw [valDigits_pad2, valDigits_pad2] at this
    omega

/-- C9 witness: two clips titled "Song" at indices 0 and 1 get distinct entry
names, and the sanitizer bounds hold at a concrete title. -/
theorem c9_sanitization_collision_tolerant_witness :
    arcname ⟨"a.mp3", "Song", 0⟩ ≠ arcname ⟨"b.mp3", "Song", 1⟩ ∧
    (sanitizeTitle "Rick Astley: Never Gonna Give You Up!!").length ≤ 40 :=
  ⟨c9_sanitization_collision_tolerant.2 ⟨"a.mp3", "Song", 0⟩ ⟨"b.mp3", "Song", 1⟩
      rfl (by decide),
    (c9_sanitization_collision_tolerant.1 "Rick Astley: Never Gonna Give You Up!!").1⟩

/-- C6: with exactly one clip the Packager copies one bare `.mp3` (no
archive); with two or more it creates exactly one zip named
`music_rounds_<timestamp>.zip` whose entries are `<02d sequence>-<sanitized
title>.mp3` in list order, and ascending `index` values give ascending
sequence numbers. -/
theorem c6_single_vs_multi_output :
    ∀ (outdir now : String) (fs : List PFile),
      (∀ f, fs = [f] →
        create_output_file outdir now fs =
          .single (outdir ++ "/" ++ sanitizeTitle f.title ++ ".mp3")) ∧
      (2 ≤ fs.length →
        create_output_file outdir now fs =
          .zip (outdir ++ "/music_rounds_" ++ now ++ ".zip") (fs.map arcname)) ∧
      (List.Pairwise (fun a b => a.index < b.index) fs →
        List.Pairwise (· < ·) (fs.map fun f => f.index + 1)) := by
  intro outdir now fs
  refine ⟨?_, ?_, ?_⟩
  · intro f hf
    subst hf
    rfl
  · intro hlen
    match fs, hlen with
    | f₁ :: f₂ :: rest, _ => rfl
  · intro hsort
    rw [List.pairwise_map]
    exact hsort.imp fun h => by omega

/-- C6 witness: concrete two-element and one-element calls. -/
theorem c6_single_vs_multi_output_witness :
    create_output_file "dest" "20250101_000000" [⟨"x.mp3", "A", 0⟩] =
      .single ("dest" ++ "/" ++ sanitizeTitle "A" ++ ".mp3") ∧
    create_output_file "dest" "20250101_000000" [⟨"x.mp3", "A", 0⟩, ⟨"y.mp3", "B", 1⟩] =
      .zip ("dest" ++ "/music_rounds_" ++ "20250101_000000" ++ ".zip")
        ([⟨"x.mp3", "A", 0⟩, ⟨"y.mp3", "B", 1⟩].map arcname) ∧
    List.Pairwise (· < ·)
      ([(⟨"x.mp3", "A", 0⟩ : PFile), ⟨"y.mp3", "B", 1⟩].map fun f => f.index + 1) :=
  ⟨(c6_single_vs_multi_output "dest" "20250101_000000" [⟨"x.mp3", "A", 0⟩]).1 _ rfl,
    (c6_single_vs_multi_output "dest" "20250101_000000"
      [⟨"x.mp3", "A", 0⟩, ⟨"y.mp3", "B", 1⟩]).2.1 (by decide),
    (c6_single_vs_multi_output "dest" "20250101_000000"
      [⟨"x.mp3", "A", 0⟩, ⟨"y.mp3", "B", 1⟩]).2.2 (by decide)⟩

/-! ## Clipper (`create_audio_clip`, main.py lines 323-389)

The external world of one call is abstracted as the primary attempt's
observable outcome (whether `subprocess.run` raised, its return code, whether
the output file exists) and whether the pydub fallback raises. -/

/-- Observable outcome of the primary ffmpeg invocation. -/
structure PrimaryAttempt where
  raises : Bool
  returncode : Int
  outputExists : Bool

/-- Observable outcome of the pydub fallback (load/slice/export). -/
structure FallbackAttempt where
  raises : Bool

/-- Result of `create_audio_clip` plus, when the fallback path ran to
completion, the millisecond range it sliced from the in-memory audio. -/
structure ClipTrace where
  result : Option String
  fallbackRange : Option (Nat × Nat)
deriving DecidableEq

/-- `create_audio_clip` (main.py 323-389).  Primary path: success requires
zero exit status and an existing output file (anything else is a soft
failure).  Fallback path: slice `audio[start_ms:end_ms]` where
`start_ms = start_time * 1000` and `end_ms = start_ms + (15 * 1000)` —
the source hard-codes a 15-second window here (line 368) even though the
function takes a `duration` parameter that the primary path honors. -/
def create_audio_clip (p : PrimaryAttempt) (fb : FallbackAttempt)
    (outdir : String) (index start_time duration : Nat) : ClipTrace :=
  let output_file := outdir ++ "/" ++ pad2 (index + 1) ++ ".mp3"
  let _ := duration  -- passed to ffmpeg as `-t` on the primary path only
  if !p.raises && p.returncode == 0 && p.outputExists then
    { result := some output_file, fallbackRange := none }
  else if fb.raises then
    { result := none, fallbackRange := none }
  else
    let start_ms := start_time * 1000
    let end_ms := start_ms + 15 * 1000
    { result := some output_file, fallbackRange := some (start_ms, end_ms) }

/-- C5 (code bug): on the fallback path with `start_time = 10` and
`duration = 20` the code slices `[10000, 25000)` — a fixed 15-second window —
not `[10000, 30000) = [start*1000, (start+duration)*1000)` as the claim (and
the function's own "custom duration" docstring and the `test_core.py`
variant, which uses `duration * 1000`) require.  The "both paths fail ⇒
`None`" half of the claim does hold. -/
theorem c5_fallback_range_hardcoded_15s :
    (create_audio_clip ⟨false, 1, false⟩ ⟨false⟩ "out" 0 10 20).fallbackRange =
      some (10000, 25000) ∧
    (10000, 25000) ≠ (10 * 1000, (10 + 20) * 1000) ∧
    (create_audio_clip ⟨false, 1, false⟩ ⟨true⟩ "out" 0 10 20).result = none := by
  refine ⟨rfl, by decide, rfl⟩

/-! ## Fetcher (`download_youtube_audio`, main.py lines 225-321)

The strategy loop is embedded over a list of per-strategy external outcomes:
either the `yt_dlp` call raises, or it completes leaving the workspace in
some state (a file listing) with some extracted title.  File discovery is a
pure function of that listing. -/

/-- Prefix test on the underlying character lists (Python `str.startswith`,
pathlib glob `stem.*`). -/
def strStarts (s pre : String) : Bool :=
  pre.data.isPrefixOf s.data

/-- ASCII lower-casing (Python `str.lower()`). -/
def strLower (s : String) : String :=
  String.mk (s.data.map Char.toLower)

/-- `pathlib.Path.suffix`: `"."` plus the part after the last dot, `""` when
there is no dot.  (Dotfile/trailing-dot corner cases of pathlib are not
distinguished; no name in play has that shape.) -/
def fileSuffix (name : String) : String :=
  if name.data.contains '.' then
    "." ++ String.mk (name.data.reverse.takeWhile (fun c => c != '.')).reverse
  else ""

/-- Extensions probed at the exact expected path and accepted by the glob
search (main.py 286, 295). -/
def audioExts3 : List String := [".mp3", ".m4a", ".webm"]

/-- Extensions accepted by the any-audio-file search (main.py 302). -/
def audioExts5 : List String := [".mp3", ".m4a", ".webm", ".aac", ".ogg"]

/-- Search (a), main.py 286-290: `str(output_path) + ext` for each known
extension, first hit wins. -/
def exactSearch (fs : List String) (stem : String) : Option String :=
  (audioExts3.map fun ext => stem ++ ext).find? fun c => fs.contains c

/-- Search (b), main.py 293-297: glob `temp_<index>.*` filtered by suffix. -/
def globSearch (fs : List String) (stem : String) : Option String :=
  fs.find? fun f => strStarts f (stem ++ ".") && audioExts3.contains (fileSuffix f)

/-- Search (c), main.py 300-304: any file whose lower-cased suffix is an
audio extension. -/
def anySearch (fs : List String) : Option String :=
  fs.find? fun f => audioExts5.contains (strLower (fileSuffix f))

/-- The three-phase file discovery, in source order: exact path, then glob by
stem, then any audio file. -/
def findDownloadedFile (fs : List String) (stem : String) : Option String :=
  (exactSearch fs stem).orElse fun _ =>
    (globSearch fs stem).orElse fun _ => anySearch fs

/-- What one strategy attempt does: the `yt_dlp` call raises, or completes
with an extracted title (`info.get('title', ...)`) and a workspace listing. -/
inductive StratOutcome where
  | raises (msg : String)
  | completes (titleOpt : Option String) (fs : List String)

/-- Result of `download_youtube_audio`: a discovered file with its title; a
plain `return None` (cancelled, or the last strategy raised); or the raised
`Exception("All download strategies failed")` when the loop exhausts all
strategies without finding a file. -/
inductive FetchRes where
  | found (file : String) (title : String)
  | retNone
  | raisedAllFailed
deriving DecidableEq

/-- The strategy loop (main.py 268-321) from position `i` with `n` total
strategies; also returns the list of strategy indices actually attempted. -/
def dyGo (stem : String) (index : Nat) (running : Nat → Bool) (n : Nat) :
    Nat → List StratOutcome → FetchRes × List Nat
  | _, [] => (.raisedAllFailed, [])
  | i, o :: rest =>
    if !(running i) then (.retNone, [])
    else
      match o with
      | .raises _ =>
        if i = n - 1 then (.retNone, [i])
        else
          let r := dyGo stem index running n (i + 1) rest
          (r.1, i :: r.2)
      | .completes tOpt fs =>
        match findDownloadedFile fs stem with
        | some f => (.found f (tOpt.getD ("Track " ++ natToDec (index + 1))), [i])
        | none =>
          let r := dyGo stem index running n (i + 1) rest
          (r.1, i :: r.2)

/-- `download_youtube_audio` (main.py 225-321): the output-path stem is
`temp_<index>`; strategies are tried in order from the front of `outcomes`. -/
def download_youtube_audio (running : Nat → Bool) (index : Nat)
    (outcomes : List StratOutcome) : FetchRes × List Nat :=
  dyGo ("temp_" ++ natToDec index) index running outcomes.length 0 outcomes

/-- A strategy attempt that does not produce a usable file: it raises, or it
completes but no file is discoverable. -/
def stratFails (stem : String) (o : StratOutcome) : Prop :=
  (∃ m, o = .raises m) ∨
    (∃ t fs, o = .completes t fs ∧ findDownloadedFile fs stem = none)

/-- Skipping a prefix of failing strategies: while every strategy in `pre`
fails (and none of them is in last position), the loop just records the
attempts and moves on. -/
lemma dyGo_skip_failures (stem : String) (index n : Nat) :
    ∀ (pre rest : List StratOutcome) (i : Nat),
      (∀ o ∈ pre, stratFails stem o) → i + pre.length < n →
      dyGo stem index (fun _ => true) n i (pre ++ rest) =
        ((dyGo stem index (fun _ => true) n (i + pre.length) rest).1,
          List.range' i pre.length ++
            (dyGo stem index (fun _ => true) n (i + pre.length) rest).2) := by
  intro pre
  induction pre with
  | nil =>
    intro rest i _ _
    simp [List.range']
  | cons o pre ih =>
    intro rest i hfail hlen
    simp only [List.length_cons] at hlen ⊢
    have hlen' : i + 1 + pre.length < n := by omega
    have hrec := ih rest (i + 1) (fun o ho => hfail o (List.mem_cons_of_mem _ ho)) hlen'
    have hi : i ≠ n - 1 := by omega
    have harith : i + (pre.length + 1) = i + 1 + pre.length := by omega
    rcases hfail o (List.mem_cons_self o pre) with ⟨m, rfl⟩ | ⟨t, fs, rfl, hfind⟩
    · simp only [List.cons_append, dyGo, Bool.not_true, Bool.false_eq_true, if_false,
        if_neg hi, List.append_eq]
      rw [harith, hrec, List.range'_succ]
      simp
    · simp only [List.cons_append, dyGo, Bool.not_true, Bool.false_eq_true, if_false,
        hfind, List.append_eq]
      rw [harith, hrec, List.range'_succ]
      simp

/-- When every strategy completes without a discoverable file, the loop falls
off the end and the "All download strategies failed" exception is raised. -/
lemma dyGo_all_complete_nofind (stem : String) (index n : Nat) :
    ∀ (l : List StratOutcome) (i : Nat),
      (∀ o ∈ l, ∃ t fs, o = .completes t fs ∧ findDownloadedFile fs stem = none) →
      (dyGo stem index (fun _ => true) n i l).1 = .raisedAllFailed := by
  intro l
  induction l with
  | nil => intro i _; rfl
  | cons o rest ih =>
    intro i h
    obtain ⟨t, fs, rfl, hfind⟩ := h o (List.mem_cons_self o rest)
    simp only [dyGo, Bool.not_true, Bool.false_eq_true, if_false, hfind]
    exact ih (i + 1) fun o ho => h o (List.mem_cons_of_mem _ ho)

/-- C4 counterexample: with a single strategy that raises, the Fetcher
returns a plain `None` — it does not propagate a `FetchFailed` exception with
aggregated reasons as the claim states (main.py 316-318 `return None`). -/
theorem c4_last_strategy_raises_counterexample :
    (download_youtube_audio (fun _ => true) 0 [.raises "boom"]).1 = .retNone ∧
    FetchRes.retNone ≠ .raisedAllFailed :=
  ⟨rfl, by decide⟩

/-- C4 amended: strategies are tried in order and the first discoverable file
(exact path, then glob by stem, then any audio file) wins immediately with no
later attempts; a non-final raising strategy advances to the next; but a
raising LAST strategy makes the Fetcher return `None` (no exception, no
aggregated reasons), and the raised "All download strategies failed" occurs
only when every strategy completes without a discoverable file. -/
theorem c4_strategy_loop_amended (index : Nat) :
    (∀ (pre post : List StratOutcome) (tOpt : Option String) (fs : List String)
        (f : String),
      (∀ o ∈ pre, stratFails ("temp_" ++ natToDec index) o) →
      findDownloadedFile fs ("temp_" ++ natToDec index) = some f →
      download_youtube_audio (fun _ => true) index
          (pre ++ .completes tOpt fs :: post) =
        (.found f (tOpt.getD ("Track " ++ natToDec (index + 1))),
          List.range (pre.length + 1))) ∧
    (∀ fs : List String,
      findDownloadedFile fs ("temp_" ++ natToDec index) =
        ((exactSearch fs ("temp_" ++ natToDec index)).orElse fun _ =>
          (globSearch fs ("temp_" ++ natToDec index)).orElse fun _ =>
            anySearch fs)) ∧
    (∀ (pre : List StratOutcome) (msg : String),
      (∀ o ∈ pre, stratFails ("temp_" ++ natToDec index) o) →
      (download_youtube_audio (fun _ => true) index (pre ++ [.raises msg])).1 =
        .retNone) ∧
    (∀ outcomes : List StratOutcome,
      (∀ o ∈ outcomes, ∃ t fs, o = .completes t fs ∧
        findDownloadedFile fs ("temp_" ++ natToDec index) = none) →
      (download_youtube_audio (fun _ => true) index outcomes).1 =
        .raisedAllFailed) := by
  refine ⟨?_, fun _ => rfl, ?_, ?_⟩
  · intro pre post tOpt fs f hfail hfind
    unfold download_youtube_audio
    rw [dyGo_skip_failures _ index _ pre _ 0 hfail (by simp)]
    simp only [Nat.zero_add, dyGo, Bool.not_true, Bool.false_eq_true, if_false, hfind]
    rw [← List.range_eq_range', ← List.range_succ]
  · intro pre msg hfail
    unfold download_youtube_audio
    rw [dyGo_skip_failures _ index _ pre _ 0 hfail (by simp)]
    simp only [Nat.zero_add, dyGo, Bool.not_true, Bool.false_eq_true, if_false]
    rw [if_pos (by simp)]
  · intro outcomes h
    exact dyGo_all_complete_nofind _ index _ outcomes 0 h

/-- C4 witness: the three behavioural clauses at concrete strategy lists. -/
theorem c4_strategy_loop_amended_witness :
    download_youtube_audio (fun _ => true) 0 [.completes (some "T") ["temp_0.mp3"]] =
      (.found "temp_0.mp3" "T", [0]) ∧
    (download_youtube_audio (fun _ => true) 0
      [.completes none ["x.txt"], .raises "boom"]).1 = .retNone ∧
    (download_youtube_audio (fun _ => true) 0 [.completes none []]).1 =
      .raisedAllFailed := by
  refine ⟨?_, ?_, ?_⟩
  · have h := (c4_strategy_loop_amended 0).1 [] [] (some "T") ["temp_0.mp3"]
      "temp_0.mp3" (by simp) (by decide)
    simpa using h
  · exact (c4_strategy_loop_amended 0).2.2.1 [.completes none ["x.txt"]] "boom"
      (fun o ho => by
        simp only [List.mem_singleton] at ho
        subst ho
        exact Or.inr ⟨none, ["x.txt"], rfl, by decide⟩)
  · exact (c4_strategy_loop_amended 0).2.2.2 [.completes none []]
      (fun o ho => by
        simp only [List.mem_singleton] at ho
        subst ho
        exact ⟨none, [], rfl, by decide⟩)

/-! ## Batch Orchestrator (`DownloadWorker.run`, main.py lines 116-221)

The loop over `links_data` is embedded with the external world as explicit
parameters: `elapsed i` is `time.time() - start_time` observed at the budget
check of iteration `i`; `run1 i`/`run2 i` are the two `is_running` reads of
iteration `i` (the flag is one-shot, set only by `stop()`); `runEnd` is the
read at line 201; `fetch i` is the outcome of `download_youtube_audio` for
job `i`.  Emitted signals become an event list; the write to the destination
directory becomes an `Option OutputResult`. -/

/-- Python `str(i)` for a (possibly negative) integer. -/
def intToDec (i : Int) : String :=
  if i < 0 then "-" ++ natToDec i.natAbs else natToDec i.natAbs

/-- One entry of `links_data` with its fields already resolved
(`url`, `start_time`, `duration`, `title`). -/
structure LinkData where
  url : String
  start : Int
  duration : Nat
  title : String
deriving DecidableEq

/-- Outcome of the `download_youtube_audio` call for one job: a file and
title, a `None` return, or a raised exception. -/
inductive FetchOutcome where
  | ok (file : String) (vtitle : String)
  | failed
  | raised (msg : String)
deriving DecidableEq

/-- Signals emitted by the worker: `progress` (Info), `error`,
`memory_update`, `finished` (Done). -/
inductive Ev where
  | info (msg : String)
  | error (msg : String)
  | memSample
  | done (path : String)
deriving DecidableEq

/-- Is this an `error` signal? -/
def Ev.isError : Ev → Bool
  | .error _ => true
  | _ => false

/-- Is this a `finished` (Done) signal? -/
def Ev.isDone : Ev → Bool
  | .done _ => true
  | _ => false

/-- The per-job loop (main.py 136-199) from index `i`, with the dedup set
`urls` and accumulator `files`.  Returns (events, accumulated files, Fetcher
invocations as (index, url) pairs, whether the flag was still observed true
at loop exit). -/
def runGo (n : Nat) (elapsed : Nat → Nat) (run1 run2 : Nat → Bool)
    (fetch : Nat → FetchOutcome) :
    Nat → List LinkData → List String → List PFile →
      List Ev × List PFile × List (Nat × String) × Bool
  | _, [], _, files => ([], files, [], true)
  | i, ld :: rest, urls, files =>
    if !(run1 i) then ([], files, [], false)
    else if 600 < elapsed i then
      ([.error "Processing timeout: exceeded 10 minutes"], files, [], true)
    else if !(run2 i) then
      ([.info "Processing stopped by user"], files, [], false)
    else if urls.contains ld.url then
      let r := runGo n elapsed run1 run2 fetch (i + 1) rest urls files
      (.info ("Skipping duplicate URL: " ++ ld.title) :: r.1, r.2)
    else
      let head : List Ev :=
        [.info ("Processing " ++ natToDec (i + 1) ++ "/" ++ natToDec n ++ ": " ++
            ld.title),
          .info ("Downloading audio for: " ++ ld.title),
          .info ("URL: " ++ ld.url),
          .info ("Start time: " ++ intToDec ld.start ++ " seconds"),
          .info ("Duration: " ++ natToDec ld.duration ++ " seconds")]
      match fetch i with
      | .raised msg =>
        (head ++ [.error ("Error processing " ++ ld.title ++ ": " ++ msg)], files,
          [(i, ld.url)], true)
      | .failed =>
        (head ++ [.info ("Failed to download audio for: " ++ ld.title)], files,
          [(i, ld.url)], true)
      | .ok f vt =>
        let mid : List Ev :=
          [.info ("Downloaded to: " ++ f),
            .info ("Added to processing list: " ++ f ++ " with title: " ++ vt),
            .memSample] ++
          (if i < n - 1 then [.info "Waiting 2 seconds before next song..."] else [])
        let r := runGo n elapsed run1 run2 fetch (i + 1) rest (ld.url :: urls)
          (files ++ [⟨f, vt, i⟩])
        (head ++ mid ++ r.1, r.2.1, (i, ld.url) :: r.2.2.1, r.2.2.2)

/-- Observable outcome of one whole batch run. -/
structure RunResult where
  events : List Ev
  output : Option OutputResult
  files : List PFile
  fetched : List (Nat × String)
deriving DecidableEq

/-- `DownloadWorker.run` (main.py 116-221): run the loop, then — only when
`processed_files` is non-empty AND `is_running` is still true — call
`create_output_file` and emit `finished`; otherwise emit the
`"No files were successfully processed."` error and write nothing.  Workspace
cleanup always runs last and only logs. -/
def runWorker (links : List LinkData) (elapsed : Nat → Nat)
    (run1 run2 : Nat → Bool) (runEnd : Bool) (fetch : Nat → FetchOutcome)
    (outdir now tmp : String) : RunResult :=
  let pre : List Ev :=
    [.info ("Created temporary directory: " ++ tmp),
      .info ("Output directory: " ++ tmp ++ "/output"),
      .info "Starting download process..."]
  let cleanup : List Ev :=
    [.info ("Cleaning up temporary directory: " ++ tmp),
      .info ("Temporary directory deleted: " ++ tmp)]
  let r := runGo links.length elapsed run1 run2 fetch 0 links [] []
  if !r.2.1.isEmpty && r.2.2.2 && runEnd then
    let out := create_output_file outdir now r.2.1
    { events := pre ++ r.1 ++
        [.info ("Creating output with " ++ natToDec r.2.1.length ++
            " processed files..."),
          .info ("Output created: " ++ out.path),
          .done out.path] ++ cleanup,
      output := some out, files := r.2.1, fetched := r.2.2.1 }
  else
    { events := pre ++ r.1 ++
        [.error "No files were successfully processed."] ++ cleanup,
      output := none, files := r.2.1, fetched := r.2.2.1 }

/-- The job loop itself never emits a `finished` (Done) signal; only the
post-loop packaging block does. -/
lemma runGo_no_done (n : Nat) (elapsed : Nat → Nat) (run1 run2 : Nat → Bool)
    (fetch : Nat → FetchOutcome) :
    ∀ (r : List LinkData) (i : Nat) (urls : List String) (files : List PFile),
      (runGo n elapsed run1 run2 fetch i r urls files).1.countP Ev.isDone = 0 := by
  intro r
  induction r with
  | nil => intro i urls files; rfl
  | cons ld rest ih =>
    intro i urls files
    rw [runGo]
    split_ifs with h1 h2 h3 h4 h5
    · rfl
    · rfl
    · rfl
    · simp [List.countP_cons, ih, Ev.isDone]
    · cases hf : fetch i <;>
        simp [List.countP_append, List.countP_cons, ih, Ev.isDone]
    · cases hf : fetch i <;>
        simp [List.countP_append, List.countP_cons, ih, Ev.isDone]

/-- Every Fetcher invocation recorded by the loop is on a URL not yet in the
dedup set, and no URL is fetched twice. -/
lemma runGo_fetched_urls (n : Nat) (elapsed : Nat → Nat) (run1 run2 : Nat → Bool)
    (fetch : Nat → FetchOutcome) :
    ∀ (r : List LinkData) (i : Nat) (urls : List String) (files : List PFile),
      (∀ p ∈ (runGo n elapsed run1 run2 fetch i r urls files).2.2.1, p.2 ∉ urls) ∧
      ((runGo n elapsed run1 run2 fetch i r urls files).2.2.1.map Prod.snd).Nodup := by
  intro r
  induction r with
  | nil => intro i urls files; exact ⟨by simp [runGo], by simp [runGo]⟩
  | cons ld rest ih =>
    intro i urls files
    rw [runGo]
    split_ifs with h1 h2 h3 h4 h5
    case pos => exact ⟨by simp, by simp⟩
    case pos => exact ⟨by simp, by simp⟩
    case pos => exact ⟨by simp, by simp⟩
    case pos => exact ih (i + 1) urls files
    all_goals
      have hnotmem : ld.url ∉ urls := fun hmem => h4 (by simpa using hmem)
    all_goals
      cases hf : fetch i with
      | ok f vt =>
        obtain ⟨ihall, ihnodup⟩ := ih (i + 1) (ld.url :: urls) (files ++ [⟨f, vt, i⟩])
        refine ⟨?_, ?_⟩
        · intro p hp
          rcases List.mem_cons.mp hp with rfl | hp'
          · exact hnotmem
          · exact fun hu => ihall p hp' (List.mem_cons_of_mem _ hu)
        · refine List.Nodup.cons ?_ ihnodup
          intro hmem
          rw [List.mem_map] at hmem
          obtain ⟨p, hp, hpu⟩ := hmem
          exact ihall p hp (hpu ▸ List.mem_cons_self _ _)
      | failed =>
        exact ⟨fun p hp => by simp at hp; subst hp; exact hnotmem, by simp⟩
      | raised msg =>
        exact ⟨fun p hp => by simp at hp; subst hp; exact hnotmem, by simp⟩

/-- C2 counterexample: two jobs where the second fetch raises after the first
succeeded — the run emits one `Error` AND one `Done`, and writes the first
clip to the destination, contradicting "never both an Error and a Done in the
same run" and "Failed with zero side-effect". -/
theorem c2_error_and_done_coexist_counterexample :
    (runWorker [⟨"u1", 0, 15, "A"⟩, ⟨"u2", 0, 15, "B"⟩] (fun _ => 0) (fun _ => true)
        (fun _ => true) true (fun i => if i = 0 then .ok "f0" "T0" else .raised "boom")
        "dest" "TS" "tmp").events.countP Ev.isError = 1 ∧
    (runWorker [⟨"u1", 0, 15, "A"⟩, ⟨"u2", 0, 15, "B"⟩] (fun _ => 0) (fun _ => true)
        (fun _ => true) true (fun i => if i = 0 then .ok "f0" "T0" else .raised "boom")
        "dest" "TS" "tmp").events.countP Ev.isDone = 1 ∧
    (runWorker [⟨"u1", 0, 15, "A"⟩, ⟨"u2", 0, 15, "B"⟩] (fun _ => 0) (fun _ => true)
        (fun _ => true) true (fun i => if i = 0 then .ok "f0" "T0" else .raised "boom")
        "dest" "TS" "tmp").output.isSome = true := by
  decide

/-- C2 amended: every run emits exactly one `Done` when it delivers an output
and none otherwise; a run that delivers nothing emits at least one `Error`.
(`Error` and `Done` are NOT mutually exclusive: a job failure after earlier
successes yields both — see the counterexample.) -/
theorem c2_terminal_emission_amended :
    ∀ (links : List LinkData) (elapsed : Nat → Nat) (run1 run2 : Nat → Bool)
      (runEnd : Bool) (fetch : Nat → FetchOutcome) (outdir now tmp : String),
      ((runWorker links elapsed run1 run2 runEnd fetch outdir now tmp).events.countP
          Ev.isDone =
        if (runWorker links elapsed run1 run2 runEnd fetch outdir now tmp).output.isSome
        then 1 else 0) ∧
      ((runWorker links elapsed run1 run2 runEnd fetch outdir now tmp).output = none →
        1 ≤ (runWorker links elapsed run1 run2 runEnd fetch
          outdir now tmp).events.countP Ev.isError) := by
  intro links elapsed run1 run2 runEnd fetch outdir now tmp
  rw [runWorker]
  split
  · constructor
    · simp [List.countP_append, List.countP_cons, runGo_no_done, Ev.isDone]
    · intro h
      simp at h
  · constructor
    · simp [List.countP_append, List.countP_cons, runGo_no_done, Ev.isDone]
    · intro _
      simp [List.countP_append, List.countP_cons, Ev.isError]

/-- C2 witness: the amended theorem applied to the empty batch, whose output
is `none`. -/
theorem c2_terminal_emission_amended_witness :
    1 ≤ (runWorker [] (fun _ => 0) (fun _ => true) (fun _ => true) true
      (fun _ => .failed) "dest" "TS" "tmp").events.countP Ev.isError :=
  (c2_terminal_emission_amended [] (fun _ => 0) (fun _ => true) (fun _ => true) true
    (fun _ => .failed) "dest" "TS" "tmp").2 (by decide)

/-- C8: (general) no two Fetcher invocations of one run share a URL; and
(concretely) two jobs with the same URL yield exactly one Fetcher invocation,
an Info skip event for the second, no Error, and a delivered output — the
skip neither fails the run nor counts as a job failure. -/
theorem c8_dedup_one_fetch_per_url :
    (∀ (links : List LinkData) (elapsed : Nat → Nat) (run1 run2 : Nat → Bool)
        (runEnd : Bool) (fetch : Nat → FetchOutcome) (outdir now tmp : String),
      ((runWorker links elapsed run1 run2 runEnd fetch outdir now
        tmp).fetched.map Prod.snd).Nodup) ∧
    (runWorker [⟨"u", 0, 15, "A"⟩, ⟨"u", 5, 15, "B"⟩] (fun _ => 0) (fun _ => true)
        (fun _ => true) true (fun _ => .ok "f" "T") "dest" "TS" "tmp").fetched =
      [(0, "u")] ∧
    Ev.info "Skipping duplicate URL: B" ∈
      (runWorker [⟨"u", 0, 15, "A"⟩, ⟨"u", 5, 15, "B"⟩] (fun _ => 0) (fun _ => true)
        (fun _ => true) true (fun _ => .ok "f" "T") "dest" "TS" "tmp").events ∧
    (runWorker [⟨"u", 0, 15, "A"⟩, ⟨"u", 5, 15, "B"⟩] (fun _ => 0) (fun _ => true)
        (fun _ => true) true (fun _ => .ok "f" "T") "dest" "TS"
        "tmp").events.countP Ev.isError = 0 ∧
    (runWorker [⟨"u", 0, 15, "A"⟩, ⟨"u", 5, 15, "B"⟩] (fun _ => 0) (fun _ => true)
        (fun _ => true) true (fun _ => .ok "f" "T") "dest" "TS"
        "tmp").output.isSome = true := by
  refine ⟨?_, by decide, by decide, by decide, by decide⟩
  intro links elapsed run1 run2 runEnd fetch outdir now tmp
  rw [runWorker]
  split
  · exact (runGo_fetched_urls _ _ _ _ _ links 0 [] []).2
  · exact (runGo_fetched_urls _ _ _ _ _ links 0 [] []).2

/-- If the first `m` iterations from `i` proceed normally (budget respected,
fetch succeeds) and the budget is exceeded at iteration `i + m`, the loop
emits the timeout error there and fetches nothing at or beyond `i + m`. -/
lemma runGo_timeout_at (n : Nat) (elapsed : Nat → Nat) (fetch : Nat → FetchOutcome) :
    ∀ (m i : Nat) (r : List LinkData) (urls : List String) (files : List PFile),
      m < r.length →
      (∀ j, i ≤ j → j < i + m → elapsed j ≤ 600 ∧ ∃ f t, fetch j = .ok f t) →
      600 < elapsed (i + m) →
      (∀ p ∈ (runGo n elapsed (fun _ => true) (fun _ => true) fetch i r urls
          files).2.2.1, p.1 < i + m) ∧
      Ev.error "Processing timeout: exceeded 10 minutes" ∈
        (runGo n elapsed (fun _ => true) (fun _ => true) fetch i r urls files).1 := by
  intro m
  induction m with
  | zero =>
    intro i r urls files hlen hpre htime
    cases r with
    | nil => simp at hlen
    | cons ld rest =>
      rw [runGo, if_neg (by simp), if_pos (by simpa using htime)]
      exact ⟨by simp, by simp⟩
  | succ m ih =>
    intro i r urls files hlen hpre htime
    cases r with
    | nil => simp at hlen
    | cons ld rest =>
      obtain ⟨htlo, f, t, hok⟩ := hpre i le_rfl (by omega)
      rw [runGo, if_neg (by simp), if_neg (by omega), if_neg (by simp)]
      have harith : i + 1 + m = i + (m + 1) := by omega
      by_cases hc : urls.contains ld.url
      · rw [if_pos hc]
        have hrec := ih (i + 1) rest urls files (by simpa using hlen)
          (fun j hj1 hj2 => hpre j (by omega) (by omega)) (by rw [harith]; exact htime)
        refine ⟨?_, ?_⟩
        · intro p hp
          have := hrec.1 p hp
          omega
        · exact List.mem_cons_of_mem _ hrec.2
      · rw [if_neg hc]
        simp only [hok]
        have hrec := ih (i + 1) rest (ld.url :: urls) (files ++ [⟨f, t, i⟩])
          (by simpa using hlen)
          (fun j hj1 hj2 => hpre j (by omega) (by omega)) (by rw [harith]; exact htime)
        refine ⟨?_, ?_⟩
        · intro p hp
          rcases List.mem_cons.mp hp with rfl | hp'
          · omega
          · have := hrec.1 p hp'
            omega
        · exact List.mem_append.mpr (Or.inr hrec.2)

/-- C3: if the 600-second budget is exceeded before job `k` starts (and the
run proceeds normally up to there), the Fetcher is never invoked for job `k`
or any later job and the timeout-specific error is reported. -/
theorem c3_timeout_stops_remaining_jobs :
    ∀ (links : List LinkData) (elapsed : Nat → Nat) (fetch : Nat → FetchOutcome)
      (outdir now tmp : String) (k : Nat),
      k < links.length →
      (∀ j, j < k → elapsed j ≤ 600 ∧ ∃ f t, fetch j = .ok f t) →
      600 < elapsed k →
      (∀ p ∈ (runWorker links elapsed (fun _ => true) (fun _ => true) true fetch
          outdir now tmp).fetched, p.1 < k) ∧
      Ev.error "Processing timeout: exceeded 10 minutes" ∈
        (runWorker links elapsed (fun _ => true) (fun _ => true) true fetch
          outdir now tmp).events := by
  intro links elapsed fetch outdir now tmp k hk hpre htime
  have h := runGo_timeout_at links.length elapsed fetch k 0 links [] [] hk
    (fun j _ hj2 => hpre j (by omega)) (by simpa using htime)
  rw [runWorker]
  split
  · exact ⟨fun p hp => by simpa using h.1 p hp,
      by simp only [List.mem_append]; exact Or.inl (Or.inl (Or.inr h.2))⟩
  · exact ⟨fun p hp => by simpa using h.1 p hp,
      by simp only [List.mem_append]; exact Or.inl (Or.inl (Or.inr h.2))⟩

/-- C3 witness: two jobs, clock at 700s before job 1 — the timeout error is
reported. -/
theorem c3_timeout_stops_remaining_jobs_witness :
    Ev.error "Processing timeout: exceeded 10 minutes" ∈
      (runWorker [⟨"u1", 0, 15, "A"⟩, ⟨"u2", 0, 15, "B"⟩]
        (fun i => if i = 0 then 0 else 700) (fun _ => true) (fun _ => true) true
        (fun _ => .ok "f" "T") "dest" "TS" "tmp").events :=
  (c3_timeout_stops_remaining_jobs [⟨"u1", 0, 15, "A"⟩, ⟨"u2", 0, 15, "B"⟩]
    (fun i => if i = 0 then 0 else 700)
    (fun _ => .ok "f" "T") "dest" "TS" "tmp" 1 (by decide)
    (fun j hj => by
      have : j = 0 := by omega
      subst this
      exact ⟨by decide, "f", "T", rfl⟩)
    (by decide)).2

/-- If iterations `i..i+m-1` fetch successfully (all URLs distinct and new)
and the fetch at `i + m` fails or raises, the loop stops there: nothing past
`i + m` is fetched, the flag stays true, and exactly `m` clips were added. -/
lemma runGo_fail_at (n : Nat) (elapsed : Nat → Nat) (fetch : Nat → FetchOutcome) :
    ∀ (m i : Nat) (r : List LinkData) (urls : List String) (files : List PFile),
      m < r.length →
      (∀ j, j ≤ i + m → elapsed j ≤ 600) →
      (∀ j, i ≤ j → j < i + m → ∃ f t, fetch j = .ok f t) →
      (fetch (i + m) = .failed ∨ ∃ msg, fetch (i + m) = .raised msg) →
      (r.map LinkData.url).Nodup →
      (∀ u ∈ r.map LinkData.url, u ∉ urls) →
      (∀ p ∈ (runGo n elapsed (fun _ => true) (fun _ => true) fetch i r urls
          files).2.2.1, p.1 ≤ i + m) ∧
      (runGo n elapsed (fun _ => true) (fun _ => true) fetch i r urls
          files).2.2.2 = true ∧
      (runGo n elapsed (fun _ => true) (fun _ => true) fetch i r urls
          files).2.1.length = files.length + m := by
  intro m
  induction m with
  | zero =>
    intro i r urls files hlen htime hok hfail hnodup hdisj
    cases r with
    | nil => simp at hlen
    | cons ld rest =>
      have hnew : ld.url ∉ urls := hdisj ld.url (by simp)
      rw [runGo, if_neg (by simp), if_neg (by have := htime i (by omega); omega),
        if_neg (by simp), if_neg (fun hc => hnew (by simpa using hc))]
      rcases hfail with hf | ⟨msg, hf⟩
      all_goals
        simp only [Nat.add_zero] at hf
        simp only [hf]
      · exact ⟨fun p hp => by simp at hp; subst hp; omega, by trivial, by simp⟩
      · exact ⟨fun p hp => by simp at hp; subst hp; omega, by trivial, by simp⟩
  | succ m ih =>
    intro i r urls files hlen htime hok hfail hnodup hdisj
    cases r with
    | nil => simp at hlen
    | cons ld rest =>
      have hnew : ld.url ∉ urls := hdisj ld.url (by simp)
      obtain ⟨f, t, hf⟩ := hok i le_rfl (by omega)
      rw [runGo, if_neg (by simp), if_neg (by have := htime i (by omega); omega),
        if_neg (by simp), if_neg (fun hc => hnew (by simpa using hc))]
      simp only [hf]
      have hmapcons : (ld :: rest).map LinkData.url = ld.url :: rest.map LinkData.url :=
        rfl
      rw [hmapcons] at hnodup hdisj
      obtain ⟨hhead, htail⟩ := List.nodup_cons.mp hnodup
      have harith : i + 1 + m = i + (m + 1) := by omega
      have hrec := ih (i + 1) rest (ld.url :: urls) (files ++ [⟨f, t, i⟩])
        (by simpa using hlen)
        (fun j hj => htime j (by omega))
        (fun j hj1 hj2 => hok j (by omega) (by omega))
        (by rw [harith]; exact hfail)
        htail
        (by
          intro u hu hmem
          rcases List.mem_cons.mp hmem with rfl | hmem'
          · exact hhead hu
          · exact hdisj u (List.mem_cons_of_mem _ hu) hmem')
      refine ⟨?_, hrec.2.1, ?_⟩
      · intro p hp
        rcases List.mem_cons.mp hp with rfl | hp'
        · omega
        · have := hrec.1 p hp'
          omega
      · rw [hrec.2.2]
        simp
        omega

/-- C1 counterexample: three jobs, job 2 of 3 fails at the fetch stage — the
run still writes job 1's clip to the destination as a bare file, so the
destination is NOT untouched and the earlier clip is delivered, not
discarded. -/
theorem c1_partial_delivery_counterexample :
    (runWorker [⟨"u1", 0, 15, "A"⟩, ⟨"u2", 0, 15, "B"⟩, ⟨"u3", 0, 15, "C"⟩]
      (fun _ => 0) (fun _ => true) (fun _ => true) true
      (fun i => if i = 0 then .ok "f0" "T0" else .failed)
      "dest" "TS" "tmp").output = some (.single "dest/T0.mp3") ∧
    some (OutputResult.single "dest/T0.mp3") ≠ (none : Option OutputResult) := by
  decide

/-- C1 amended: a fetch failure at job `k` stops the batch — no Fetcher
invocation happens past job `k` — but clips from earlier jobs are not
discarded: the run delivers an output to the destination exactly when at
least one job before `k` produced a clip (`0 < k`); nothing is written only
when the very first job fails. -/
theorem c1_fail_stops_batch_amended :
    ∀ (links : List LinkData) (elapsed : Nat → Nat) (fetch : Nat → FetchOutcome)
      (outdir now tmp : String) (k : Nat),
      k < links.length →
      (links.map LinkData.url).Nodup →
      (∀ j, j ≤ k → elapsed j ≤ 600) →
      (∀ j, j < k → ∃ f t, fetch j = .ok f t) →
      (fetch k = .failed ∨ ∃ msg, fetch k = .raised msg) →
      (∀ p ∈ (runWorker links elapsed (fun _ => true) (fun _ => true) true fetch
          outdir now tmp).fetched, p.1 ≤ k) ∧
      ((runWorker links elapsed (fun _ => true) (fun _ => true) true fetch
          outdir now tmp).output.isSome ↔ 0 < k) := by
  intro links elapsed fetch outdir now tmp k hk hnodup htime hok hfail
  have h := runGo_fail_at links.length elapsed fetch k 0 links [] [] hk
    (fun j hj => htime j (by omega)) (fun j _ hj2 => hok j (by omega))
    (by simpa using hfail) hnodup (by simp)
  rw [runWorker]
  have hflag := h.2.1
  have hlenf := h.2.2
  simp only [List.length_nil, Nat.zero_add] at hlenf
  rcases Nat.eq_zero_or_pos k with hk0 | hk0
  · have hempty : (runGo links.length elapsed (fun _ => true) (fun _ => true) fetch 0
        links [] []).2.1 = [] := by
      rw [← List.length_eq_zero, hlenf, hk0]
    rw [if_neg (by simp [hempty])]
    refine ⟨fun p hp => by simpa using h.1 p hp, ?_⟩
    simp [hk0]
  · have hnonempty : (runGo links.length elapsed (fun _ => true) (fun _ => true) fetch 0
        links [] []).2.1 ≠ [] := by
      intro he
      rw [he] at hlenf
      simp at hlenf
      omega
    rw [if_pos (by simp [hflag, List.isEmpty_eq_false.mpr hnonempty])]
    refine ⟨fun p hp => by simpa using h.1 p hp, by simpa using hk0⟩

/-- C1 witness: the amended theorem at a concrete three-job batch failing at
job 2 — the partial output is delivered. -/
theorem c1_fail_stops_batch_amended_witness :
    (runWorker [⟨"u1", 0, 15, "A"⟩, ⟨"u2", 0, 15, "B"⟩, ⟨"u3", 0, 15, "C"⟩]
      (fun _ => 0) (fun _ => true) (fun _ => true) true
      (fun i => if i = 0 then .ok "f0" "T0" else .failed)
      "dest" "TS" "tmp").output.isSome ↔ 0 < 1 :=
  (c1_fail_stops_batch_amended
    [⟨"u1", 0, 15, "A"⟩, ⟨"u2", 0, 15, "B"⟩, ⟨"u3", 0, 15, "C"⟩]
    (fun _ => 0) (fun i => if i = 0 then .ok "f0" "T0" else .failed)
    "dest" "TS" "tmp" 1 (by decide) (by decide) (fun _ _ => Nat.zero_le 600)
    (fun j hj => by
      have : j = 0 := by omega
      subst this
      exact ⟨"f0", "T0", rfl⟩)
    (Or.inl (by decide))).2

/-- C10: `parse_timestamp` performs no range validation — a negative integer
string parses to the negative value, and out-of-range sexagesimal components
are accepted ("1:99" yields 159) — so the parser does not enforce
`start_time ≥ 0`. -/
theorem c10_parse_timestamp_no_range_validation :
    parse_timestamp "-5" = some (-5) ∧ (-5 : Int) < 0 ∧
    parse_timestamp "1:99" = some 159 := by decide

end TriviaMusic
